import Mathlib

/-!
Shallow embedding of the filecoin-pay auction bot (JavaScript sources under
`src/`).  JS `bigint` arithmetic is modelled with `Int` (or `Nat` where the
value is an on-chain unsigned quantity), asynchronous external calls
(RPC reads, the Sushi quoting service, transaction submission) are modelled
as oracle inputs packaged in environment records, and JS exceptions are
modelled with `Except`.  Side effects relevant to the specification
(on-chain reads, service queries, transaction submissions, log lines) are
collected into explicit event traces.
-/

namespace Bot

/-! ## Price decay model — `calculateCurrentPrice`, src/index.js lines 790-816 -/

/-- Constant `HALVING_INTERVAL = 302400n` (src/index.js line 713). -/
def HALVING_INTERVAL : Nat := 302400

/-- The halving loop in `calculateCurrentPrice`:
`for (let i = 0n; i < numHalvings; i++) { price = price / 2n; if (price === 0n) return 0n }`.
The early `return 0n` from the enclosing function is modelled by `none`. -/
def halvingLoop : Nat → Nat → Option Nat
  | price, 0 => some price
  | price, n + 1 =>
    if price / 2 = 0 then none else halvingLoop (price / 2) n

/-- Embedding of `calculateCurrentPrice(startPrice, startTime)`
(src/index.js lines 790-816).  The source reads the reference timestamp from
`Date.now()`; it is exposed here as the explicit parameter `now`.
`startPrice` is an on-chain unsigned price (`uint88`), hence `Nat`;
the timestamps are arbitrary `bigint`s, hence `Int`. -/
def calculateCurrentPrice (startPrice : Nat) (startTime now : Int) : Nat :=
  let elapsed : Int := now - startTime
  if elapsed ≤ 0 then startPrice
  else
    let e : Nat := elapsed.toNat
    let numHalvings := e / HALVING_INTERVAL
    match halvingLoop startPrice numHalvings with
    | none => 0
    | some price =>
      let remainder := e % HALVING_INTERVAL
      if remainder > 0 then
        let fractionDecay := remainder * 1000000 / HALVING_INTERVAL
        let decayMultiplier := 1000000 - fractionDecay / 2
        price * decayMultiplier / 1000000
      else price

/-- Closed-form multiplier applied for the partial-period remainder
(`1000000n - fractionDecay / 2n` in the source). -/
def decayMult (r : Nat) : Nat := 1000000 - r * 1000000 / HALVING_INTERVAL / 2

/-- Closed form of the decayed price at a non-negative elapsed time `e`:
full halvings by floor division, then the linear-interpolation multiplier on
the remainder.  Proven equal to `calculateCurrentPrice` below. -/
def decayedAt (p e : Nat) : Nat :=
  p / 2 ^ (e / HALVING_INTERVAL) * decayMult (e % HALVING_INTERVAL) / 1000000

/-! ## Profitability evaluator — `checkProfitability`, src/lib/auction.js lines 275-289 -/

/-- Result record of `checkProfitability`. -/
structure ProfitabilityResult where
  totalCost : Int
  totalGasCost : Int
  isProfitable : Bool
  deriving Repr, DecidableEq

/-- Embedding of `checkProfitability({auctionPrice, bidGasCost, swapGasCost, swapAmountOut})`
(src/lib/auction.js lines 275-289).  All four arguments are JS `bigint`s,
modelled as `Int`. -/
def checkProfitability (auctionPrice bidGasCost swapGasCost swapAmountOut : Int) :
    ProfitabilityResult :=
  let totalGasCost := bidGasCost + swapGasCost
  let totalCost := auctionPrice + totalGasCost
  { totalCost := totalCost
    totalGasCost := totalGasCost
    isProfitable := decide (swapAmountOut ≥ totalCost) }

/-! ## Data model and event traces for the stateful pipeline -/

/-- Addresses and transaction hashes are opaque strings. -/
abbrev Address := String

/-- Transaction hash. -/
abbrev Hash := String

/-- Sushi `RouteStatus` (values `Success`, `Partial`, `NoWay`); the `Partial`
value is spelled `PartialRoute` here. -/
inductive RouteStatus
  | Success
  | PartialRoute
  | NoWay
  deriving Repr, DecidableEq

/-- Swap transaction payload `{to, data, value}`; the JS field `to` is a
reserved word in Lean and is spelled `toAddr`. -/
structure SwapTx where
  toAddr : Address
  data : String
  value : Int
  deriving Repr, DecidableEq

/-- Sushi swap-quote response: `status`, `assumedAmountOut` and the optional
`tx` payload (the source checks `'tx' in quote`).  `assumedAmountOut` is a
decimal string in the wire format; the source converts it with `BigInt(...)`,
so it is modelled directly as `Int`. -/
structure SwapResponse where
  status : RouteStatus
  assumedAmountOut : Int
  tx : Option SwapTx
  deriving Repr, DecidableEq

/-- Result of the on-chain `auctionInfo` read (synapse-core). -/
structure AuctionInfo where
  token : Address
  startPrice : Int
  startTime : Int
  deriving Repr, DecidableEq

/-- Auction snapshot built by `getActiveAuction` (`{...auction, availableFees}`). -/
structure Auction where
  token : Address
  startPrice : Int
  startTime : Int
  availableFees : Int
  deriving Repr, DecidableEq

/-- Observable side effects of one iteration: on-chain reads, external
service queries, transaction submissions, receipt waiting, and the log lines
the claims distinguish. -/
inductive Event
  | auctionInfoRead (token : Address)
  | auctionFundsRead (token : Address)
  | logNoActiveAuction (token : Address)
  | logNoAvailableFees (token : Address)
  | logFoundAuction (token : Address)
  | quoteServiceCall
  | logQuoteFailed
  | logSkipQuote
  | logSkipGasEstimation
  | logNotProfitable
  | logInsufficientBalance
  | fetchNonce
  | placeBidCall (nonce : Nat)
  | executeSwapCall (nonce : Nat)
  | waitForReceiptsCall
  deriving Repr, DecidableEq

/-- On-chain read oracles used by `getActiveAuction`: the `auctionInfo` and
`auctionFunds` contract calls (synapse-core wrappers). -/
structure ChainReads where
  auctionInfo : Address → AuctionInfo
  auctionFunds : Address → Int

/-! ## Auction state reader — src/lib/auction.js lines 40-95 -/

/-- Embedding of `getActiveAuction(publicClient, tokenAddress)`
(src/lib/auction.js lines 40-59).  Returns the snapshot (or `none` when
`startTime === 0n`) together with the trace of on-chain reads performed. -/
def getActiveAuction (chain : ChainReads) (tokenAddress : Address) :
    Option Auction × List Event :=
  let auction := chain.auctionInfo tokenAddress
  if auction.startTime = 0 then
    (none, [Event.auctionInfoRead tokenAddress])
  else
    let availableFees := chain.auctionFunds tokenAddress
    (some { token := auction.token, startPrice := auction.startPrice,
            startTime := auction.startTime, availableFees := availableFees },
      [Event.auctionInfoRead tokenAddress, Event.auctionFundsRead tokenAddress])

/-- Embedding of `getTokenAuction({publicClient, tokenAddress})`
(src/lib/auction.js lines 74-95).  The external `auctionPriceAt` helper
(synapse-core) is the oracle parameter `priceAt`; `blockTimestamp` is the
timestamp of `publicClient.getBlock()`.  Returns
`{auction, bidAmount, auctionPrice}` or `none`, plus the event trace. -/
def getTokenAuction (chain : ChainReads) (priceAt : Auction → Int → Int)
    (blockTimestamp : Int) (tokenAddress : Address) :
    Option (Auction × Int × Int) × List Event :=
  match getActiveAuction chain tokenAddress with
  | (none, ev) => (none, ev ++ [Event.logNoActiveAuction tokenAddress])
  | (some auction, ev) =>
    if auction.availableFees = 0 then
      (none, ev ++ [Event.logNoAvailableFees tokenAddress])
    else
      let bidAmount := auction.availableFees
      let auctionPrice := priceAt auction blockTimestamp
      (some (auction, bidAmount, auctionPrice), ev ++ [Event.logFoundAuction tokenAddress])

/-! ## Market quote client — src/lib/swap.js lines 19-74 -/

/-- Constant `SUSHISWAP_NATIVE_PLACEHOLDER` (src/lib/swap.js line 5). -/
def SUSHISWAP_NATIVE_PLACEHOLDER : Address :=
  "0xEeeeeEeeeEeEeeEeEeEeeEEEeeeeEeeeeeeeEEeE"

/-- Chain id 314, the value of the external constant `ChainId.FILECOIN`
(Filecoin mainnet). -/
def FILECOIN_CHAIN_ID : Nat := 314

/-- Arguments of a quote request. -/
structure SwapQuoteArgs where
  tokenIn : Address
  tokenOut : Address
  amount : Int
  sender : Address
  deriving Repr, DecidableEq

/-- Embedding of `getSwapQuote({tokenIn, tokenOut, amount, sender})`
(src/lib/swap.js lines 19-41).  The external `getSwap` call (sushi) is an
oracle that either returns a response or throws (`Except.error`); the
`try/catch` converts a throw into `null`.  The event trace records whether
the external service was queried. -/
def getSwapQuote (getSwap : SwapQuoteArgs → Except String SwapResponse)
    (args : SwapQuoteArgs) : Option SwapResponse × List Event :=
  if args.amount = 0 then
    (none, [])
  else
    match getSwap args with
    | Except.ok r => (some r, [Event.quoteServiceCall])
    | Except.error _ => (none, [Event.quoteServiceCall, Event.logQuoteFailed])

/-- Embedding of `discoverSushiswapRouter({chainId, tokenIn, sender})`
(src/lib/swap.js lines 52-74). -/
def discoverSushiswapRouter (getSwap : SwapQuoteArgs → Except String SwapResponse)
    (chainId : Nat) (tokenIn sender : Address) : Option Address × List Event :=
  if chainId ≠ FILECOIN_CHAIN_ID then
    (none, [])
  else
    match getSwapQuote getSwap
      { tokenIn := tokenIn, tokenOut := SUSHISWAP_NATIVE_PLACEHOLDER,
        amount := 1000000000000000000, sender := sender } with
    | (none, ev) => (none, ev)
    | (some quote, ev) =>
      match quote.tx with
      | none => (none, ev)
      | some tx => (some tx.toAddr, ev)

/-- Startup wiring of the bot entry point (src/index.js lines 208-211):
`config.chainId === 314 ? await discoverSushiswapRouter(...) : null`. -/
def startupSushiswapRouter (getSwap : SwapQuoteArgs → Except String SwapResponse)
    (chainId : Nat) (usdfcAddress walletAddress : Address) : Option Address :=
  if chainId = FILECOIN_CHAIN_ID then
    (discoverSushiswapRouter getSwap chainId usdfcAddress walletAddress).1
  else
    none

/-! ## Oracle environment for gas estimation, submission and orchestration -/

/-- Oracle outcomes of every external call made in one `processAuctions`
iteration.  Each field holds the result the corresponding RPC or service
call would produce; `Except.error` models a thrown exception. -/
structure ProcessEnv where
  balance : Int
  existingUsdfcBalance : Int
  chain : ChainReads
  priceAt : Auction → Int → Int
  blockTimestamp : Int
  getSwap : SwapQuoteArgs → Except String SwapResponse
  bidGasEstimate : Except String Int
  swapGasEstimate : Except String Int
  gasPrice : Int
  transactionCount : Nat
  placeBidResult : Except String Hash
  executeSwapResult : Except String Hash

/-! ## Gas cost estimator — src/lib/auction.js lines 154-259 -/

/-- Embedding of `estimateBidGas` (src/lib/auction.js lines 154-177): the
`estimateContractGas` RPC call wrapped in `try/catch`, a throw yielding `0n`. -/
def estimateBidGas (env : ProcessEnv) : Int :=
  match env.bidGasEstimate with
  | Except.ok g => g
  | Except.error _ => 0

/-- Embedding of `estimateSwapGas` (src/lib/auction.js lines 188-201): the
`estimateGas` RPC call wrapped in `try/catch`, a throw yielding `0n`. -/
def estimateSwapGas (env : ProcessEnv) : Int :=
  match env.swapGasEstimate with
  | Except.ok g => g
  | Except.error _ => 0

/-- Embedding of `estimateGasCosts` (src/lib/auction.js lines 218-259):
bid estimate, swap estimate (`0n` unless `swapEnabled && swapTx`), and gas
price; `null` if `bidGasEstimate === 0n`, else both costs. -/
def estimateGasCosts (env : ProcessEnv) (swapEnabled : Bool) (swapTx : Option SwapTx) :
    Option (Int × Int) :=
  let bidGasEstimate := estimateBidGas env
  let swapGasEstimate :=
    match swapEnabled, swapTx with
    | true, some _ => estimateSwapGas env
    | _, _ => 0
  let gasPrice := env.gasPrice
  if bidGasEstimate = 0 then
    none
  else
    some (gasPrice * bidGasEstimate, gasPrice * swapGasEstimate)

/-! ## Bid/Swap submitter — src/lib/auction.js lines 309-363 -/

/-- Embedding of `submitBidAndSwap` (src/lib/auction.js lines 309-363).
The nonce is fetched once from `getTransactionCount`; `placeBid` is called
with that nonce, and, if it returned a hash and `swapEnabled && swapTx`,
`executeSwap` is called with `nonce + 1`.  Any throw inside the `try` block
yields `null`.  The trace records the fetch and the two submission calls
with the nonces they were given. -/
def submitBidAndSwap (env : ProcessEnv) (swapEnabled : Bool) (swapTx : Option SwapTx) :
    Option (Hash × Option Hash) × List Event :=
  let nonce := env.transactionCount
  match env.placeBidResult with
  | Except.error _ => (none, [Event.fetchNonce, Event.placeBidCall nonce])
  | Except.ok bidHash =>
    match swapEnabled, swapTx with
    | true, some _ =>
      match env.executeSwapResult with
      | Except.error _ =>
        (none, [Event.fetchNonce, Event.placeBidCall nonce, Event.executeSwapCall (nonce + 1)])
      | Except.ok swapHash =>
        (some (bidHash, some swapHash),
          [Event.fetchNonce, Event.placeBidCall nonce, Event.executeSwapCall (nonce + 1)])
    | _, _ => (some (bidHash, none), [Event.fetchNonce, Event.placeBidCall nonce])

/-! ## Iteration orchestrator — `processAuctions`, src/lib/auction.js lines 410-521 -/

/-- Embedding of `processAuctions(config)` (src/lib/auction.js lines
410-521).  The JS function returns `undefined`; its observable behaviour is
the trace of events.  Gates, in source order: auction presence and funds
(`getTokenAuction`), quote status `Success`, gas estimation, profitability,
native balance sufficiency, submission success, then receipt waiting. -/
def processAuctions (env : ProcessEnv)
    (walletAddress usdfcAddress usdfcAddressMainnet : Address)
    (sushiswapRouterAddress : Option Address) : List Event :=
  let balance := env.balance
  let existingUsdfcBalance := env.existingUsdfcBalance
  match getTokenAuction env.chain env.priceAt env.blockTimestamp usdfcAddress with
  | (none, ev1) => ev1
  | (some (_auction, bidAmount, auctionPrice), ev1) =>
    let swapEnabled := sushiswapRouterAddress.isSome
    let totalSwapAmount := existingUsdfcBalance + bidAmount
    match getSwapQuote env.getSwap
      { tokenIn := usdfcAddressMainnet, tokenOut := SUSHISWAP_NATIVE_PLACEHOLDER,
        amount := totalSwapAmount, sender := walletAddress } with
    | (none, ev2) => ev1 ++ ev2 ++ [Event.logSkipQuote]
    | (some swapQuote, ev2) =>
      if swapQuote.status ≠ RouteStatus.Success then
        ev1 ++ ev2 ++ [Event.logSkipQuote]
      else
        match estimateGasCosts env swapEnabled swapQuote.tx with
        | none => ev1 ++ ev2 ++ [Event.logSkipGasEstimation]
        | some (bidGasCost, swapGasCost) =>
          let swapAmountOut := swapQuote.assumedAmountOut
          let pr := checkProfitability auctionPrice bidGasCost swapGasCost swapAmountOut
          if !pr.isProfitable then
            ev1 ++ ev2 ++ [Event.logNotProfitable]
          else if balance < pr.totalCost then
            ev1 ++ ev2 ++ [Event.logInsufficientBalance]
          else
            match submitBidAndSwap env swapEnabled swapQuote.tx with
            | (none, ev3) => ev1 ++ ev2 ++ ev3
            | (some _, ev3) => ev1 ++ ev2 ++ ev3 ++ [Event.waitForReceiptsCall]

/-! ## Concrete sample data used by the closed witness statements -/

/-- Sample on-chain state: an active auction (`startTime = 1`) with 5 units
of available fees and start price 100. -/
def sampleChain : ChainReads :=
  { auctionInfo := fun a => { token := a, startPrice := 100, startTime := 1 }
    auctionFunds := fun _ => 5 }

/-- Sample chain whose auction was never registered (`startTime = 0`). -/
def zeroStartChain : ChainReads :=
  { auctionInfo := fun a => { token := a, startPrice := 5, startTime := 0 }
    auctionFunds := fun _ => 9 }

/-- Sample chain with a registered auction but an empty fee pool. -/
def zeroFeesChain : ChainReads :=
  { auctionInfo := fun a => { token := a, startPrice := 5, startTime := 1 }
    auctionFunds := fun _ => 0 }

/-- Sample successful quote with a swap payload. -/
def sampleQuote : SwapResponse :=
  { status := RouteStatus.Success
    assumedAmountOut := 1000
    tx := some { toAddr := "0xrouter", data := "0xdata", value := 0 } }

/-- Sample oracle environment in which every external call succeeds and the
pipeline reaches submission.  The profitable totals are
`auctionPrice = 100`, `bidGasCost = swapGasCost = 1`, `swapAmountOut = 1000`,
hence `totalCost = 102`. -/
def sampleEnv : ProcessEnv :=
  { balance := 200
    existingUsdfcBalance := 0
    chain := sampleChain
    priceAt := fun _ _ => 100
    blockTimestamp := 2
    getSwap := fun _ => Except.ok sampleQuote
    bidGasEstimate := Except.ok 1
    swapGasEstimate := Except.ok 1
    gasPrice := 1
    transactionCount := 7
    placeBidResult := Except.ok "0xbid"
    executeSwapResult := Except.ok "0xswap" }

/-- Profitable environment whose wallet balance (0) is below the total cost. -/
def insufficientEnv : ProcessEnv := { sampleEnv with balance := 0 }

/-- Environment whose bid gas estimation call throws. -/
def bidGasErrorEnv : ProcessEnv := { sampleEnv with bidGasEstimate := Except.error "revert" }

/-- Environment whose swap gas estimation call throws (bid estimate fine). -/
def swapGasErrorEnv : ProcessEnv := { sampleEnv with swapGasEstimate := Except.error "revert" }

/-- Environment whose swap submission throws after a successful bid broadcast. -/
def swapSubmitErrorEnv : ProcessEnv :=
  { sampleEnv with executeSwapResult := Except.error "nonce too low" }

end Bot

namespace Bot

/-! ## Lemmas on the halving loop and the closed form -/

theorem halvingLoop_some {p n q : Nat} (h : halvingLoop p n = some q) :
    q = p / 2 ^ n := by
  induction n generalizing p with
  | zero => simpa [halvingLoop] using h.symm
  | succ n ih =>
    rw [halvingLoop] at h
    by_cases hz : p / 2 = 0
    · simp [hz] at h
    · rw [if_neg hz] at h
      have := ih h
      rw [this, Nat.div_div_eq_div_mul, pow_succ, mul_comm]

theorem halvingLoop_none {p n : Nat} (h : halvingLoop p n = none) :
    p / 2 ^ n = 0 := by
  induction n generalizing p with
  | zero => simp [halvingLoop] at h
  | succ n ih =>
    rw [halvingLoop] at h
    by_cases hz : p / 2 = 0
    · rw [pow_succ, mul_comm, ← Nat.div_div_eq_div_mul, hz, Nat.zero_div]
    · rw [if_neg hz] at h
      have := ih h
      rw [pow_succ, mul_comm, ← Nat.div_div_eq_div_mul, this]

theorem decayMult_le (r : Nat) : decayMult r ≤ 1000000 := Nat.sub_le _ _

theorem decayMult_antitone {r s : Nat} (h : r ≤ s) : decayMult s ≤ decayMult r := by
  apply Nat.sub_le_sub_left
  apply Nat.div_le_div_right
  apply Nat.div_le_div_right
  exact Nat.mul_le_mul_right _ h

theorem decayMult_zero : decayMult 0 = 1000000 := by decide

theorem decayMult_ge {r : Nat} (h : r < HALVING_INTERVAL) : 500000 ≤ decayMult r := by
  have h1 : r ≤ HALVING_INTERVAL - 1 := Nat.le_sub_one_of_lt h
  have h2 : decayMult (HALVING_INTERVAL - 1) ≤ decayMult r := decayMult_antitone h1
  have h3 : decayMult (HALVING_INTERVAL - 1) = 500002 := by decide
  omega

theorem decayedAt_zero (p : Nat) : decayedAt p 0 = p := by
  unfold decayedAt
  rw [Nat.zero_div, Nat.zero_mod, decayMult_zero, pow_zero, Nat.div_one,
    Nat.mul_div_cancel _ (by norm_num : (0:Nat) < 1000000)]

theorem half_as_mul (q : Nat) : q / 2 = q * 500000 / 1000000 := by
  rw [mul_comm, show (1000000 : Nat) = 500000 * 2 from rfl,
    Nat.mul_div_mul_left _ _ (by norm_num : (0:Nat) < 500000)]

theorem decayedAt_succ_le (p e : Nat) : decayedAt p (e + 1) ≤ decayedAt p e := by
  have hT : 0 < HALVING_INTERVAL := by decide
  have hmod : e % HALVING_INTERVAL < HALVING_INTERVAL := Nat.mod_lt _ hT
  have hdm : HALVING_INTERVAL * (e / HALVING_INTERVAL) + e % HALVING_INTERVAL = e :=
    Nat.div_add_mod e HALVING_INTERVAL
  by_cases hlast : e % HALVING_INTERVAL + 1 = HALVING_INTERVAL
  · -- the increment crosses a halving boundary
    have he1 : e + 1 = HALVING_INTERVAL * (e / HALVING_INTERVAL + 1) := by
      rw [Nat.mul_succ]
      omega
    have hq : (e + 1) / HALVING_INTERVAL = e / HALVING_INTERVAL + 1 := by
      rw [he1, Nat.mul_div_cancel_left _ hT]
    have hr : (e + 1) % HALVING_INTERVAL = 0 := by
      rw [he1, Nat.mul_mod_right]
    unfold decayedAt
    rw [hq, hr, decayMult_zero,
      Nat.mul_div_cancel _ (by norm_num : (0:Nat) < 1000000)]
    have hhalf : p / 2 ^ (e / HALVING_INTERVAL + 1) = p / 2 ^ (e / HALVING_INTERVAL) / 2 := by
      rw [pow_succ, ← Nat.div_div_eq_div_mul]
    rw [hhalf, half_as_mul]
    apply Nat.div_le_div_right
    apply Nat.mul_le_mul_left
    have : e % HALVING_INTERVAL = HALVING_INTERVAL - 1 := by omega
    rw [this]
    have : decayMult (HALVING_INTERVAL - 1) = 500002 := by decide
    omega
  · -- the increment stays within the current halving period
    have hlt : e % HALVING_INTERVAL + 1 < HALVING_INTERVAL := by omega
    have he1 : e + 1 = e % HALVING_INTERVAL + 1 + HALVING_INTERVAL * (e / HALVING_INTERVAL) := by
      omega
    have hq : (e + 1) / HALVING_INTERVAL = e / HALVING_INTERVAL := by
      rw [he1, Nat.add_mul_div_left _ _ hT, Nat.div_eq_of_lt hlt, Nat.zero_add]
    have hr : (e + 1) % HALVING_INTERVAL = e % HALVING_INTERVAL + 1 := by
      rw [he1, Nat.add_mul_mod_self_left, Nat.mod_eq_of_lt hlt]
    unfold decayedAt
    rw [hq, hr]
    apply Nat.div_le_div_right
    exact Nat.mul_le_mul_left _ (decayMult_antitone (Nat.le_succ _))

theorem decayedAt_antitone (p : Nat) : Antitone (decayedAt p) :=
  antitone_nat_of_succ_le (decayedAt_succ_le p)

theorem calculateCurrentPrice_eq_decayedAt (p : Nat) (t now : Int) (h : t < now) :
    calculateCurrentPrice p t now = decayedAt p (now - t).toNat := by
  have hpos : ¬ (now - t ≤ 0) := by omega
  unfold calculateCurrentPrice
  rw [if_neg hpos]
  show (match halvingLoop p ((now - t).toNat / HALVING_INTERVAL) with
    | none => 0
    | some price =>
      if (now - t).toNat % HALVING_INTERVAL > 0 then
        price * (1000000 - (now - t).toNat % HALVING_INTERVAL * 1000000 / HALVING_INTERVAL / 2) /
          1000000
      else price) = decayedAt p (now - t).toNat
  cases hl : halvingLoop p ((now - t).toNat / HALVING_INTERVAL) with
  | none =>
    have h0 : p / 2 ^ ((now - t).toNat / HALVING_INTERVAL) = 0 := halvingLoop_none hl
    simp only [decayedAt, h0, Nat.zero_mul, Nat.zero_div]
  | some q =>
    have hq : q = p / 2 ^ ((now - t).toNat / HALVING_INTERVAL) := halvingLoop_some hl
    dsimp only
    by_cases hr : (now - t).toNat % HALVING_INTERVAL > 0
    · rw [if_pos hr, hq]
      simp only [decayedAt, decayMult]
    · have hr0 : (now - t).toNat % HALVING_INTERVAL = 0 := by omega
      rw [if_neg hr, hq]
      simp only [decayedAt, hr0, decayMult_zero]
      rw [Nat.mul_div_cancel _ (by norm_num : (0:Nat) < 1000000)]

theorem calculateCurrentPrice_frozen (p : Nat) (t now : Int) (h : now ≤ t) :
    calculateCurrentPrice p t now = p := by
  unfold calculateCurrentPrice
  rw [if_pos (by omega)]

/-- C1: for all arbitrary-precision integers, `checkProfitability` returns
`totalCost = auctionPrice + bidGasCost + swapGasCost`, `isProfitable` is true
exactly when `swapAmountOut >= totalCost`, in particular true at break-even
and false one unit below. -/
theorem checkProfitability_spec (auctionPrice bidGasCost swapGasCost swapAmountOut : Int) :
    (checkProfitability auctionPrice bidGasCost swapGasCost swapAmountOut).totalCost =
      auctionPrice + bidGasCost + swapGasCost ∧
    ((checkProfitability auctionPrice bidGasCost swapGasCost swapAmountOut).isProfitable = true ↔
      swapAmountOut ≥ auctionPrice + bidGasCost + swapGasCost) ∧
    (checkProfitability auctionPrice bidGasCost swapGasCost
      (auctionPrice + bidGasCost + swapGasCost)).isProfitable = true ∧
    (checkProfitability auctionPrice bidGasCost swapGasCost
      (auctionPrice + bidGasCost + swapGasCost - 1)).isProfitable = false := by
  refine ⟨by simp [checkProfitability, add_assoc], ?_, ?_, ?_⟩
  · simp [checkProfitability, add_assoc]
  · simp [checkProfitability, add_assoc]
  · simp [checkProfitability, add_assoc]

/-- C2: for fixed `startPrice` and `startTime`, the decayed price computed by
`calculateCurrentPrice` is non-increasing in the reference timestamp, and for
any reference timestamp `at1 <= startTime` (in particular at equality) the
result is `startPrice` unchanged. -/
theorem calculateCurrentPrice_monotone (p : Nat) (t at1 at2 : Int) :
    (at1 ≤ at2 → calculateCurrentPrice p t at2 ≤ calculateCurrentPrice p t at1) ∧
    (at1 ≤ t → calculateCurrentPrice p t at1 = p) := by
  constructor
  · intro h12
    by_cases h2 : at2 ≤ t
    · rw [calculateCurrentPrice_frozen p t at2 h2,
        calculateCurrentPrice_frozen p t at1 (le_trans h12 h2)]
    · push_neg at h2
      rw [calculateCurrentPrice_eq_decayedAt p t at2 h2]
      by_cases h1 : at1 ≤ t
      · rw [calculateCurrentPrice_frozen p t at1 h1]
        calc decayedAt p (at2 - t).toNat ≤ decayedAt p 0 :=
              decayedAt_antitone p (Nat.zero_le _)
          _ = p := decayedAt_zero p
      · push_neg at h1
        rw [calculateCurrentPrice_eq_decayedAt p t at1 h1]
        exact decayedAt_antitone p (by omega)
  · exact calculateCurrentPrice_frozen p t at1

/-- Witness for C2 at concrete inputs. -/
theorem calculateCurrentPrice_monotone_witness :
    calculateCurrentPrice 1000000 100 907300 ≤ calculateCurrentPrice 1000000 100 105 ∧
    calculateCurrentPrice 1000000 100 100 = 1000000 := by
  refine ⟨(calculateCurrentPrice_monotone 1000000 100 105 907300).1 (by decide), ?_⟩
  exact (calculateCurrentPrice_monotone 1000000 100 100 0).2 (by decide)

/-- C3: the decayed price at elapsed time exactly 302400 seconds is
`startPrice / 2` (integer floor, hence within the rounding tolerance), and at
elapsed time exactly 604800 seconds it is `startPrice / 4`. -/
theorem calculateCurrentPrice_checkpoints (p : Nat) (t : Int) :
    calculateCurrentPrice p t (t + 302400) = p / 2 ∧
    calculateCurrentPrice p t (t + 604800) = p / 4 := by
  constructor
  · rw [calculateCurrentPrice_eq_decayedAt p t (t + 302400) (by omega)]
    have : (t + 302400 - t).toNat = 302400 := by omega
    rw [this]
    show p / 2 ^ (302400 / HALVING_INTERVAL) * decayMult (302400 % HALVING_INTERVAL) / 1000000
      = p / 2
    have h1 : 302400 / HALVING_INTERVAL = 1 := by decide
    have h2 : 302400 % HALVING_INTERVAL = 0 := by decide
    rw [h1, h2, decayMult_zero, pow_one,
      Nat.mul_div_cancel _ (by norm_num : (0:Nat) < 1000000)]
  · rw [calculateCurrentPrice_eq_decayedAt p t (t + 604800) (by omega)]
    have : (t + 604800 - t).toNat = 604800 := by omega
    rw [this]
    show p / 2 ^ (604800 / HALVING_INTERVAL) * decayMult (604800 % HALVING_INTERVAL) / 1000000
      = p / 4
    have h1 : 604800 / HALVING_INTERVAL = 2 := by decide
    have h2 : 604800 % HALVING_INTERVAL = 0 := by decide
    rw [h1, h2, decayMult_zero,
      Nat.mul_div_cancel _ (by norm_num : (0:Nat) < 1000000)]
    norm_num

/-! ## Trace-shape helper lemmas -/

theorem mem_getTokenAuction_trace {chain : ChainReads} {pa : Auction → Int → Int}
    {bt : Int} {token : Address} {e : Event}
    (h : e ∈ (getTokenAuction chain pa bt token).2) :
    e = Event.auctionInfoRead token ∨ e = Event.auctionFundsRead token ∨
    e = Event.logNoActiveAuction token ∨ e = Event.logNoAvailableFees token ∨
    e = Event.logFoundAuction token := by
  unfold getTokenAuction getActiveAuction at h
  by_cases h0 : (chain.auctionInfo token).startTime = 0
  · simp only [h0, if_true, if_pos] at h
    simp at h
    tauto
  · rw [if_neg h0] at h
    by_cases hf : (chain.auctionFunds token) = 0
    · simp only [hf] at h
      simp at h
      tauto
    · simp only [hf] at h
      simp [hf] at h
      tauto

theorem mem_getSwapQuote_trace {gs : SwapQuoteArgs → Except String SwapResponse}
    {args : SwapQuoteArgs} {e : Event}
    (h : e ∈ (getSwapQuote gs args).2) :
    e = Event.quoteServiceCall ∨ e = Event.logQuoteFailed := by
  unfold getSwapQuote at h
  by_cases h0 : args.amount = 0
  · simp [h0] at h
  · rw [if_neg h0] at h
    cases hgs : gs args with
    | ok r => rw [hgs] at h; simp at h; tauto
    | error msg => rw [hgs] at h; simp at h; tauto

theorem mem_submitBidAndSwap_trace {env : ProcessEnv} {se : Bool} {tx : Option SwapTx}
    {e : Event} (h : e ∈ (submitBidAndSwap env se tx).2) :
    e = Event.fetchNonce ∨ e = Event.placeBidCall env.transactionCount ∨
    e = Event.executeSwapCall (env.transactionCount + 1) := by
  obtain ⟨bal, ex, ch, pa, bt, gs, bg, sg, gp, tc, pb, es⟩ := env
  unfold submitBidAndSwap at h
  dsimp only at h ⊢
  cases pb with
  | error msg => simp at h; tauto
  | ok bidHash =>
    cases se with
    | false => simp at h; tauto
    | true =>
      cases tx with
      | none => simp at h; tauto
      | some t =>
        cases es with
        | error msg => simp at h; tauto
        | ok swapHash => simp at h; tauto

theorem submitBidAndSwap_disabled_no_swap (env : ProcessEnv) (tx : Option SwapTx) (n : Nat) :
    Event.executeSwapCall n ∉ (submitBidAndSwap env false tx).2 := by
  intro h
  obtain ⟨bal, ex, ch, pa, bt, gs, bg, sg, gp, tc, pb, es⟩ := env
  unfold submitBidAndSwap at h
  dsimp only at h
  cases pb with
  | error msg => simp at h
  | ok bidHash => simp at h

/-- C4: `getActiveAuction` returns absent exactly when the on-chain
`startTime` is 0; when `startTime` is 0 the fee-pool balance read is not
performed; when `startTime` is nonzero the snapshot is present even with
`availableFees = 0`, and `getTokenAuction` then surfaces the distinct
no-available-fees outcome, not the no-active-auction one. -/
theorem getActiveAuction_absence_sentinel (chain : ChainReads)
    (pa : Auction → Int → Int) (bt : Int) (token : Address) :
    ((getActiveAuction chain token).1 = none ↔ (chain.auctionInfo token).startTime = 0) ∧
    ((chain.auctionInfo token).startTime = 0 →
      Event.auctionFundsRead token ∉ (getActiveAuction chain token).2) ∧
    ((chain.auctionInfo token).startTime ≠ 0 →
      (getActiveAuction chain token).1 =
        some { token := (chain.auctionInfo token).token
               startPrice := (chain.auctionInfo token).startPrice
               startTime := (chain.auctionInfo token).startTime
               availableFees := chain.auctionFunds token }) ∧
    ((chain.auctionInfo token).startTime ≠ 0 → chain.auctionFunds token = 0 →
      (getTokenAuction chain pa bt token).1 = none ∧
      Event.logNoAvailableFees token ∈ (getTokenAuction chain pa bt token).2 ∧
      Event.logNoActiveAuction token ∉ (getTokenAuction chain pa bt token).2) := by
  by_cases h0 : (chain.auctionInfo token).startTime = 0
  · refine ⟨by simp [getActiveAuction, h0], ?_, fun h => absurd h0 h, fun h => absurd h0 h⟩
    intro _
    simp [getActiveAuction, h0]
  · refine ⟨by simp [getActiveAuction, h0], fun h => absurd h h0, ?_, ?_⟩
    · intro _
      simp [getActiveAuction, h0]
    · intro _ hf
      refine ⟨?_, ?_, ?_⟩
      · simp [getTokenAuction, getActiveAuction, h0, hf]
      · simp [getTokenAuction, getActiveAuction, h0, hf]
      · simp [getTokenAuction, getActiveAuction, h0, hf]

/-- Witness for C4: a chain with `startTime = 0` (absent, no funds read) and
a chain with `startTime = 1` but zero fees (no-available-fees outcome). -/
theorem getActiveAuction_absence_sentinel_witness :
    (getActiveAuction zeroStartChain "0xU").1 = none ∧
    Event.auctionFundsRead "0xU" ∉ (getActiveAuction zeroStartChain "0xU").2 ∧
    (getTokenAuction zeroFeesChain (fun _ _ => 0) 0 "0xU").1 = none ∧
    Event.logNoAvailableFees "0xU" ∈ (getTokenAuction zeroFeesChain (fun _ _ => 0) 0 "0xU").2 := by
  refine ⟨?_, ?_, ?_, ?_⟩
  · exact (getActiveAuction_absence_sentinel zeroStartChain (fun _ _ => 0) 0 "0xU").1.mpr rfl
  · exact (getActiveAuction_absence_sentinel zeroStartChain (fun _ _ => 0) 0 "0xU").2.1 rfl
  · exact ((getActiveAuction_absence_sentinel zeroFeesChain (fun _ _ => 0) 0 "0xU").2.2.2
      (by decide) rfl).1
  · exact ((getActiveAuction_absence_sentinel zeroFeesChain (fun _ _ => 0) 0 "0xU").2.2.2
      (by decide) rfl).2.1

/-- C5: `getSwapQuote` never lets an exception escape (it is a total
function into `Option`): a zero amount yields absent without querying the
external service, a throwing service call yields absent, and in every case
the result is either absent or the successful response. -/
theorem getSwapQuote_degradation (gs : SwapQuoteArgs → Except String SwapResponse)
    (args : SwapQuoteArgs) :
    (args.amount = 0 → getSwapQuote gs args = (none, [])) ∧
    (∀ msg, gs args = Except.error msg → (getSwapQuote gs args).1 = none) ∧
    ((getSwapQuote gs args).1 = none ∨
      ∃ r, gs args = Except.ok r ∧ (getSwapQuote gs args).1 = some r) := by
  refine ⟨fun h0 => by simp [getSwapQuote, h0], ?_, ?_⟩
  · intro msg herr
    by_cases h0 : args.amount = 0
    · simp [getSwapQuote, h0]
    · simp [getSwapQuote, h0, herr]
  · by_cases h0 : args.amount = 0
    · left; simp [getSwapQuote, h0]
    · cases hgs : gs args with
      | ok r => right; exact ⟨r, rfl, by simp [getSwapQuote, h0, hgs]⟩
      | error msg => left; simp [getSwapQuote, h0, hgs]

/-- Witness for C5: a zero-amount request returns absent with no service
query, and a throwing service yields absent. -/
theorem getSwapQuote_degradation_witness :
    getSwapQuote (fun _ => Except.error "boom")
      { tokenIn := "0xA", tokenOut := "0xB", amount := 0, sender := "0xS" } = (none, []) ∧
    (getSwapQuote (fun _ => Except.error "boom")
      { tokenIn := "0xA", tokenOut := "0xB", amount := 5, sender := "0xS" }).1 = none := by
  constructor
  · exact (getSwapQuote_degradation (fun _ => Except.error "boom")
      { tokenIn := "0xA", tokenOut := "0xB", amount := 0, sender := "0xS" }).1 rfl
  · exact (getSwapQuote_degradation (fun _ => Except.error "boom")
      { tokenIn := "0xA", tokenOut := "0xB", amount := 5, sender := "0xS" }).2.1 "boom" rfl

/-- C6: the submitter fetches the nonce exactly once; every bid submission
call carries nonce `N = transactionCount`, every swap submission call
carries `N + 1`, the bid is always attempted, and when swap is enabled with
a payload and the bid broadcast succeeded the swap is submitted with
`N + 1` — independent of receipt awaiting, which happens later. -/
theorem submitBidAndSwap_nonce_ordering (env : ProcessEnv) (se : Bool) (tx : Option SwapTx) :
    ((submitBidAndSwap env se tx).2.count Event.fetchNonce = 1) ∧
    (∀ n, Event.placeBidCall n ∈ (submitBidAndSwap env se tx).2 →
      n = env.transactionCount) ∧
    (∀ n, Event.executeSwapCall n ∈ (submitBidAndSwap env se tx).2 →
      n = env.transactionCount + 1) ∧
    Event.placeBidCall env.transactionCount ∈ (submitBidAndSwap env se tx).2 ∧
    (se = true → tx.isSome → (∃ h, env.placeBidResult = Except.ok h) →
      Event.executeSwapCall (env.transactionCount + 1) ∈ (submitBidAndSwap env se tx).2) := by
  obtain ⟨bal, ex, ch, pa, bt, gs, bg, sg, gp, tc, pb, es⟩ := env
  unfold submitBidAndSwap
  dsimp only
  cases pb with
  | error msg =>
    refine ⟨by simp, by simp, by simp, by simp, ?_⟩
    rintro _ _ ⟨h, hh⟩
    exact absurd hh (by simp)
  | ok bidHash =>
    cases se with
    | false =>
      refine ⟨by simp, by simp, by simp, by simp, ?_⟩
      intro h
      exact absurd h (by simp)
    | true =>
      cases tx with
      | none =>
        refine ⟨by simp, by simp, by simp, by simp, ?_⟩
        intro _ h
        exact absurd h (by simp)
      | some t =>
        cases es with
        | error msg => exact ⟨by simp, by simp, by simp, by simp, fun _ _ _ => by simp⟩
        | ok swapHash => exact ⟨by simp, by simp, by simp, by simp, fun _ _ _ => by simp⟩

/-- Master trace lemma: every event of a `processAuctions` iteration comes
from the auction lookup, a quote request, one of the gate logs, the receipt
wait, or the submitter — and the submitter is only reached when gas
estimation returned a cost pair. -/
theorem mem_processAuctions_trace {env : ProcessEnv} {w u um : Address}
    {router : Option Address} {e : Event}
    (h : e ∈ processAuctions env w u um router) :
    e ∈ (getTokenAuction env.chain env.priceAt env.blockTimestamp u).2 ∨
    (∃ args, e ∈ (getSwapQuote env.getSwap args).2) ∨
    e = Event.logSkipQuote ∨ e = Event.logSkipGasEstimation ∨
    e = Event.logNotProfitable ∨ e = Event.logInsufficientBalance ∨
    e = Event.waitForReceiptsCall ∨
    (∃ q : SwapResponse, estimateGasCosts env router.isSome q.tx ≠ none ∧
      e ∈ (submitBidAndSwap env router.isSome q.tx).2) := by
  revert h
  unfold processAuctions
  dsimp only
  rcases hTA : getTokenAuction env.chain env.priceAt env.blockTimestamp u with ⟨r1, ev1⟩
  cases r1 with
  | none =>
    intro h
    exact Or.inl h
  | some tuple =>
    rcases tuple with ⟨auction, bidAmount, auctionPrice⟩
    dsimp only
    rcases hQ : getSwapQuote env.getSwap
        { tokenIn := um, tokenOut := SUSHISWAP_NATIVE_PLACEHOLDER,
          amount := env.existingUsdfcBalance + bidAmount, sender := w } with ⟨r2, ev2⟩
    cases r2 with
    | none =>
      intro h
      simp only [List.mem_append, List.mem_singleton] at h
      rcases h with (h1 | h2) | h3
      · exact Or.inl h1
      · exact Or.inr (Or.inl ⟨_, by rw [hQ]; exact h2⟩)
      · exact Or.inr (Or.inr (Or.inl h3))
    | some q =>
      dsimp only
      by_cases hst : q.status ≠ RouteStatus.Success
      · rw [if_pos hst]
        intro h
        simp only [List.mem_append, List.mem_singleton] at h
        rcases h with (h1 | h2) | h3
        · exact Or.inl h1
        · exact Or.inr (Or.inl ⟨_, by rw [hQ]; exact h2⟩)
        · exact Or.inr (Or.inr (Or.inl h3))
      · rw [if_neg hst]
        cases hG : estimateGasCosts env router.isSome q.tx with
        | none =>
          intro h
          simp only [List.mem_append, List.mem_singleton] at h
          rcases h with (h1 | h2) | h3
          · exact Or.inl h1
          · exact Or.inr (Or.inl ⟨_, by rw [hQ]; exact h2⟩)
          · exact Or.inr (Or.inr (Or.inr (Or.inl h3)))
        | some costs =>
          rcases costs with ⟨bidGasCost, swapGasCost⟩
          dsimp only
          by_cases hp : (!(checkProfitability auctionPrice bidGasCost swapGasCost
              q.assumedAmountOut).isProfitable) = true
          · rw [if_pos hp]
            intro h
            simp only [List.mem_append, List.mem_singleton] at h
            rcases h with (h1 | h2) | h3
            · exact Or.inl h1
            · exact Or.inr (Or.inl ⟨_, by rw [hQ]; exact h2⟩)
            · exact Or.inr (Or.inr (Or.inr (Or.inr (Or.inl h3))))
          · rw [if_neg hp]
            by_cases hb : env.balance < (checkProfitability auctionPrice bidGasCost swapGasCost
                q.assumedAmountOut).totalCost
            · rw [if_pos hb]
              intro h
              simp only [List.mem_append, List.mem_singleton] at h
              rcases h with (h1 | h2) | h3
              · exact Or.inl h1
              · exact Or.inr (Or.inl ⟨_, by rw [hQ]; exact h2⟩)
              · exact Or.inr (Or.inr (Or.inr (Or.inr (Or.inr (Or.inl h3)))))
            · rw [if_neg hb]
              rcases hSB : submitBidAndSwap env router.isSome q.tx with ⟨r3, ev3⟩
              cases r3 with
              | none =>
                intro h
                simp only [List.mem_append] at h
                rcases h with (h1 | h2) | h3
                · exact Or.inl h1
                · exact Or.inr (Or.inl ⟨_, by rw [hQ]; exact h2⟩)
                · refine Or.inr (Or.inr (Or.inr (Or.inr (Or.inr (Or.inr (Or.inr
                    ⟨q, by rw [hG]; simp, ?_⟩))))))
                  rw [hSB]
                  exact h3
              | some txres =>
                intro h
                simp only [List.mem_append, List.mem_singleton] at h
                rcases h with ((h1 | h2) | h3) | h4
                · exact Or.inl h1
                · exact Or.inr (Or.inl ⟨_, by rw [hQ]; exact h2⟩)
                · refine Or.inr (Or.inr (Or.inr (Or.inr (Or.inr (Or.inr (Or.inr
                    ⟨q, by rw [hG]; simp, ?_⟩))))))
                  rw [hSB]
                  exact h3
                · exact Or.inr (Or.inr (Or.inr (Or.inr (Or.inr (Or.inr (Or.inl h4))))))

/-- Helper describing the trace of `processAuctions` on the
insufficient-balance path: all gates up to profitability pass, the balance
gate fails, and the iteration ends with the insufficiency log. -/
theorem processAuctions_insufficiency_trace (env : ProcessEnv)
    (w u um : Address) (router : Option Address)
    (auction : Auction) (bidAmount auctionPrice : Int) (q : SwapResponse)
    (bidGasCost swapGasCost : Int)
    (hauction : (getTokenAuction env.chain env.priceAt env.blockTimestamp u).1 =
      some (auction, bidAmount, auctionPrice))
    (hquote : (getSwapQuote env.getSwap
      { tokenIn := um, tokenOut := SUSHISWAP_NATIVE_PLACEHOLDER,
        amount := env.existingUsdfcBalance + bidAmount, sender := w }).1 = some q)
    (hstatus : q.status = RouteStatus.Success)
    (hgas : estimateGasCosts env router.isSome q.tx = some (bidGasCost, swapGasCost))
    (hprof : (checkProfitability auctionPrice bidGasCost swapGasCost
      q.assumedAmountOut).isProfitable = true)
    (hbal : env.balance <
      (checkProfitability auctionPrice bidGasCost swapGasCost q.assumedAmountOut).totalCost) :
    processAuctions env w u um router =
      (getTokenAuction env.chain env.priceAt env.blockTimestamp u).2 ++
      (getSwapQuote env.getSwap
        { tokenIn := um, tokenOut := SUSHISWAP_NATIVE_PLACEHOLDER,
          amount := env.existingUsdfcBalance + bidAmount, sender := w }).2 ++
      [Event.logInsufficientBalance] := by
  rcases hTA : getTokenAuction env.chain env.priceAt env.blockTimestamp u with ⟨r1, ev1⟩
  rw [hTA] at hauction
  have hr1 : r1 = some (auction, bidAmount, auctionPrice) := hauction
  subst hr1
  unfold processAuctions
  rw [hTA]
  dsimp only
  rcases hQ : getSwapQuote env.getSwap
      { tokenIn := um, tokenOut := SUSHISWAP_NATIVE_PLACEHOLDER,
        amount := env.existingUsdfcBalance + bidAmount, sender := w } with ⟨r2, ev2⟩
  rw [hQ] at hquote
  have hr2 : r2 = some q := hquote
  subst hr2
  dsimp only
  rw [hstatus, if_neg (by simp), hgas]
  dsimp only
  rw [hprof]
  simp only [Bool.not_true, Bool.false_eq_true, if_false, if_pos hbal]

/-- C7: when the profitability decision is positive but the wallet balance
read at the start of the iteration is strictly below `totalCost`,
`processAuctions` logs insufficiency and never invokes the submitter: no
nonce fetch, no bid submission, no swap submission. -/
theorem processAuctions_insufficiency_no_submit (env : ProcessEnv)
    (w u um : Address) (router : Option Address)
    (auction : Auction) (bidAmount auctionPrice : Int) (q : SwapResponse)
    (bidGasCost swapGasCost : Int)
    (hauction : (getTokenAuction env.chain env.priceAt env.blockTimestamp u).1 =
      some (auction, bidAmount, auctionPrice))
    (hquote : (getSwapQuote env.getSwap
      { tokenIn := um, tokenOut := SUSHISWAP_NATIVE_PLACEHOLDER,
        amount := env.existingUsdfcBalance + bidAmount, sender := w }).1 = some q)
    (hstatus : q.status = RouteStatus.Success)
    (hgas : estimateGasCosts env router.isSome q.tx = some (bidGasCost, swapGasCost))
    (hprof : (checkProfitability auctionPrice bidGasCost swapGasCost
      q.assumedAmountOut).isProfitable = true)
    (hbal : env.balance <
      (checkProfitability auctionPrice bidGasCost swapGasCost q.assumedAmountOut).totalCost) :
    Event.logInsufficientBalance ∈ processAuctions env w u um router ∧
    (∀ n, Event.placeBidCall n ∉ processAuctions env w u um router) ∧
    (∀ n, Event.executeSwapCall n ∉ processAuctions env w u um router) ∧
    Event.fetchNonce ∉ processAuctions env w u um router := by
  rw [processAuctions_insufficiency_trace env w u um router auction bidAmount auctionPrice q
    bidGasCost swapGasCost hauction hquote hstatus hgas hprof hbal]
  refine ⟨by simp, ?_, ?_, ?_⟩
  · intro n hmem
    simp only [List.mem_append, List.mem_singleton] at hmem
    rcases hmem with (h1 | h2) | h3
    · have := mem_getTokenAuction_trace h1; simp at this
    · have := mem_getSwapQuote_trace h2; simp at this
    · simp at h3
  · intro n hmem
    simp only [List.mem_append, List.mem_singleton] at hmem
    rcases hmem with (h1 | h2) | h3
    · have := mem_getTokenAuction_trace h1; simp at this
    · have := mem_getSwapQuote_trace h2; simp at this
    · simp at h3
  · intro hmem
    simp only [List.mem_append, List.mem_singleton] at hmem
    rcases hmem with (h1 | h2) | h3
    · have := mem_getTokenAuction_trace h1; simp at this
    · have := mem_getSwapQuote_trace h2; simp at this
    · simp at h3

/-- Witness for C7: the sample environment with a zero wallet balance. -/
theorem processAuctions_insufficiency_no_submit_witness :
    Event.logInsufficientBalance ∈
      processAuctions insufficientEnv "0xW" "0xU" "0xUM" (some "0xrouter") ∧
    Event.placeBidCall 7 ∉ processAuctions insufficientEnv "0xW" "0xU" "0xUM" (some "0xrouter") ∧
    Event.executeSwapCall 8 ∉
      processAuctions insufficientEnv "0xW" "0xU" "0xUM" (some "0xrouter") ∧
    Event.fetchNonce ∉ processAuctions insufficientEnv "0xW" "0xU" "0xUM" (some "0xrouter") := by
  have h := processAuctions_insufficiency_no_submit insufficientEnv "0xW" "0xU" "0xUM"
    (some "0xrouter")
    { token := "0xU", startPrice := 100, startTime := 1, availableFees := 5 } 5 100
    sampleQuote 1 1 (by decide) (by decide) (by decide) (by decide) (by decide) (by decide)
  exact ⟨h.1, h.2.1 7, h.2.2.1 8, h.2.2.2⟩

/-- Witness for C6 on the sample environment with swap enabled. -/
theorem submitBidAndSwap_nonce_ordering_witness :
    ((submitBidAndSwap sampleEnv true (some { toAddr := "0xrouter", data := "0xdata", value := 0 })).2.count
      Event.fetchNonce = 1) ∧
    Event.placeBidCall 7 ∈
      (submitBidAndSwap sampleEnv true (some { toAddr := "0xrouter", data := "0xdata", value := 0 })).2 ∧
    Event.executeSwapCall 8 ∈
      (submitBidAndSwap sampleEnv true (some { toAddr := "0xrouter", data := "0xdata", value := 0 })).2 := by
  refine ⟨?_, ?_, ?_⟩
  · exact (submitBidAndSwap_nonce_ordering sampleEnv true _).1
  · exact (submitBidAndSwap_nonce_ordering sampleEnv true _).2.2.2.1
  · exact (submitBidAndSwap_nonce_ordering sampleEnv true
      (some { toAddr := "0xrouter", data := "0xdata", value := 0 })).2.2.2.2 rfl (by decide)
      ⟨"0xbid", rfl⟩

/-- Helper: a throwing bid gas estimate makes `estimateGasCosts` return
`null` (the catch in `estimateBidGas` yields `0n` and the `0n` gate fires). -/
theorem estimateGasCosts_bid_error (env : ProcessEnv) (se : Bool) (tx : Option SwapTx)
    (msg : String) (h : env.bidGasEstimate = Except.error msg) :
    estimateGasCosts env se tx = none := by
  unfold estimateGasCosts estimateBidGas
  rw [h]
  simp

/-- C8: a throwing bid gas estimation is a hard stop — `estimateGasCosts`
returns `null` and the iteration submits nothing; a throwing swap gas
estimation alone is non-fatal — its cost defaults to zero and the cost pair
is still produced. -/
theorem estimateGasCosts_failure_policy (env : ProcessEnv) (se : Bool) (tx : Option SwapTx)
    (w u um : Address) (router : Option Address) :
    (∀ msg, env.bidGasEstimate = Except.error msg →
      estimateGasCosts env se tx = none ∧
      (∀ n, Event.placeBidCall n ∉ processAuctions env w u um router) ∧
      (∀ n, Event.executeSwapCall n ∉ processAuctions env w u um router) ∧
      Event.fetchNonce ∉ processAuctions env w u um router) ∧
    (∀ g msg, env.bidGasEstimate = Except.ok g → g ≠ 0 →
      env.swapGasEstimate = Except.error msg →
      estimateGasCosts env se tx = some (env.gasPrice * g, 0)) := by
  constructor
  · intro msg herr
    have hnone : ∀ tx2 : Option SwapTx, estimateGasCosts env router.isSome tx2 = none :=
      fun tx2 => estimateGasCosts_bid_error env router.isSome tx2 msg herr
    refine ⟨estimateGasCosts_bid_error env se tx msg herr, ?_, ?_, ?_⟩
    · intro n hmem
      rcases mem_processAuctions_trace hmem with
        h1 | ⟨args, h2⟩ | h3 | h4 | h5 | h6 | h7 | ⟨q, hne, _⟩
      · have := mem_getTokenAuction_trace h1; simp at this
      · have := mem_getSwapQuote_trace h2; simp at this
      · simp at h3
      · simp at h4
      · simp at h5
      · simp at h6
      · simp at h7
      · exact hne (hnone q.tx)
    · intro n hmem
      rcases mem_processAuctions_trace hmem with
        h1 | ⟨args, h2⟩ | h3 | h4 | h5 | h6 | h7 | ⟨q, hne, _⟩
      · have := mem_getTokenAuction_trace h1; simp at this
      · have := mem_getSwapQuote_trace h2; simp at this
      · simp at h3
      · simp at h4
      · simp at h5
      · simp at h6
      · simp at h7
      · exact hne (hnone q.tx)
    · intro hmem
      rcases mem_processAuctions_trace hmem with
        h1 | ⟨args, h2⟩ | h3 | h4 | h5 | h6 | h7 | ⟨q, hne, _⟩
      · have := mem_getTokenAuction_trace h1; simp at this
      · have := mem_getSwapQuote_trace h2; simp at this
      · simp at h3
      · simp at h4
      · simp at h5
      · simp at h6
      · simp at h7
      · exact hne (hnone q.tx)
  · intro g msg hok hg0 herr
    unfold estimateGasCosts estimateBidGas estimateSwapGas
    rw [hok, herr]
    dsimp only
    rw [if_neg hg0]
    cases se <;> cases tx <;> simp

/-- Witness for C8: the throwing-bid-estimate environment stops the
iteration; the throwing-swap-estimate environment proceeds with a zero swap
gas cost. -/
theorem estimateGasCosts_failure_policy_witness :
    estimateGasCosts bidGasErrorEnv true sampleQuote.tx = none ∧
    Event.placeBidCall 7 ∉
      processAuctions bidGasErrorEnv "0xW" "0xU" "0xUM" (some "0xrouter") ∧
    Event.fetchNonce ∉ processAuctions bidGasErrorEnv "0xW" "0xU" "0xUM" (some "0xrouter") ∧
    estimateGasCosts swapGasErrorEnv true sampleQuote.tx = some (1 * 1, 0) := by
  have hA := (estimateGasCosts_failure_policy bidGasErrorEnv true sampleQuote.tx
    "0xW" "0xU" "0xUM" (some "0xrouter")).1 "revert" rfl
  have hB := (estimateGasCosts_failure_policy swapGasErrorEnv true sampleQuote.tx
    "0xW" "0xU" "0xUM" (some "0xrouter")).2 1 "revert" rfl (by decide) rfl
  exact ⟨hA.1, hA.2.1 7, hA.2.2.2, hB⟩

/-- Helper: with an absent router the swap path is disabled, so no swap
submission event can ever appear in an iteration trace. -/
theorem processAuctions_router_none_no_swap (env : ProcessEnv) (w u um : Address) (n : Nat) :
    Event.executeSwapCall n ∉ processAuctions env w u um none := by
  intro hmem
  rcases mem_processAuctions_trace hmem with
    h1 | ⟨args, h2⟩ | h3 | h4 | h5 | h6 | h7 | ⟨q, _, h8⟩
  · have := mem_getTokenAuction_trace h1; simp at this
  · have := mem_getSwapQuote_trace h2; simp at this
  · simp at h3
  · simp at h4
  · simp at h5
  · simp at h6
  · simp at h7
  · exact submitBidAndSwap_disabled_no_swap env q.tx n h8

/-- C9: for any chain id other than 314 (Filecoin mainnet),
`discoverSushiswapRouter` returns `null` without querying the quote
service; the startup wiring therefore yields a `null` router off mainnet,
swap is disabled, and no swap transaction is ever submitted. -/
theorem discoverSushiswapRouter_offmainnet
    (gs : SwapQuoteArgs → Except String SwapResponse) (chainId : Nat)
    (tokenIn sender : Address) (h : chainId ≠ 314) :
    discoverSushiswapRouter gs chainId tokenIn sender = (none, []) ∧
    (∀ u w, startupSushiswapRouter gs chainId u w = none) ∧
    (∀ env w u um n, Event.executeSwapCall n ∉
      processAuctions env w u um (startupSushiswapRouter gs chainId u w)) := by
  have hfc : chainId ≠ FILECOIN_CHAIN_ID := h
  refine ⟨?_, ?_, ?_⟩
  · unfold discoverSushiswapRouter
    rw [if_pos hfc]
  · intro u w
    unfold startupSushiswapRouter
    rw [if_neg hfc]
  · intro env w u um n
    have hr : startupSushiswapRouter gs chainId u w = none := by
      unfold startupSushiswapRouter
      rw [if_neg hfc]
    rw [hr]
    exact processAuctions_router_none_no_swap env w u um n

/-- Witness for C9 on the Filecoin calibration chain id 314159. -/
theorem discoverSushiswapRouter_offmainnet_witness :
    discoverSushiswapRouter (fun _ => Except.ok sampleQuote) 314159 "0xU" "0xW" = (none, []) ∧
    startupSushiswapRouter (fun _ => Except.ok sampleQuote) 314159 "0xU" "0xW" = none ∧
    Event.executeSwapCall 8 ∉ processAuctions sampleEnv "0xW" "0xU" "0xUM"
      (startupSushiswapRouter (fun _ => Except.ok sampleQuote) 314159 "0xU" "0xW") := by
  have h := discoverSushiswapRouter_offmainnet (fun _ => Except.ok sampleQuote) 314159
    "0xU" "0xW" (by decide)
  exact ⟨h.1, h.2.1 "0xU" "0xW", h.2.2 sampleEnv "0xW" "0xU" "0xUM" 8⟩

/-- Helper: a successful bid broadcast followed by a throwing swap
submission makes `submitBidAndSwap` return `null` with the bid already
sent. -/
theorem submitBidAndSwap_swap_error (env : ProcessEnv) (tx : SwapTx) (bh : Hash)
    (msg : String) (hbid : env.placeBidResult = Except.ok bh)
    (hswap : env.executeSwapResult = Except.error msg) :
    submitBidAndSwap env true (some tx) =
      (none, [Event.fetchNonce, Event.placeBidCall env.transactionCount,
        Event.executeSwapCall (env.transactionCount + 1)]) := by
  unfold submitBidAndSwap
  rw [hbid]
  dsimp only
  rw [hswap]

/-- Helper describing the trace of `processAuctions` when every gate passes
but the submitter returns `null`: the iteration ends with the submitter
trace, without the receipt wait. -/
theorem processAuctions_submit_failure_trace (env : ProcessEnv)
    (w u um : Address) (router : Option Address)
    (auction : Auction) (bidAmount auctionPrice : Int) (q : SwapResponse)
    (bidGasCost swapGasCost : Int) (ev3 : List Event)
    (hauction : (getTokenAuction env.chain env.priceAt env.blockTimestamp u).1 =
      some (auction, bidAmount, auctionPrice))
    (hquote : (getSwapQuote env.getSwap
      { tokenIn := um, tokenOut := SUSHISWAP_NATIVE_PLACEHOLDER,
        amount := env.existingUsdfcBalance + bidAmount, sender := w }).1 = some q)
    (hstatus : q.status = RouteStatus.Success)
    (hgas : estimateGasCosts env router.isSome q.tx = some (bidGasCost, swapGasCost))
    (hprof : (checkProfitability auctionPrice bidGasCost swapGasCost
      q.assumedAmountOut).isProfitable = true)
    (hbal : ¬ env.balance <
      (checkProfitability auctionPrice bidGasCost swapGasCost q.assumedAmountOut).totalCost)
    (hsub : submitBidAndSwap env router.isSome q.tx = (none, ev3)) :
    processAuctions env w u um router =
      (getTokenAuction env.chain env.priceAt env.blockTimestamp u).2 ++
      (getSwapQuote env.getSwap
        { tokenIn := um, tokenOut := SUSHISWAP_NATIVE_PLACEHOLDER,
          amount := env.existingUsdfcBalance + bidAmount, sender := w }).2 ++ ev3 := by
  rcases hTA : getTokenAuction env.chain env.priceAt env.blockTimestamp u with ⟨r1, ev1⟩
  rw [hTA] at hauction
  have hr1 : r1 = some (auction, bidAmount, auctionPrice) := hauction
  subst hr1
  unfold processAuctions
  rw [hTA]
  dsimp only
  rcases hQ : getSwapQuote env.getSwap
      { tokenIn := um, tokenOut := SUSHISWAP_NATIVE_PLACEHOLDER,
        amount := env.existingUsdfcBalance + bidAmount, sender := w } with ⟨r2, ev2⟩
  rw [hQ] at hquote
  have hr2 : r2 = some q := hquote
  subst hr2
  dsimp only
  rw [hstatus, if_neg (by simp), hgas]
  dsimp only
  rw [hprof]
  simp only [Bool.not_true, Bool.false_eq_true, if_false, if_neg hbal, hsub]

/-- C10: when the swap submission throws after the bid transaction was
already broadcast, `submitBidAndSwap` returns `null`, so `processAuctions`
returns without calling `waitForReceipts` — the already-sent bid receipt is
never awaited in that iteration. -/
theorem processAuctions_swap_failure_no_receipts (env : ProcessEnv)
    (w u um : Address) (r : Address)
    (auction : Auction) (bidAmount auctionPrice : Int) (q : SwapResponse)
    (bidGasCost swapGasCost : Int) (tx : SwapTx) (bh : Hash) (msg : String)
    (hauction : (getTokenAuction env.chain env.priceAt env.blockTimestamp u).1 =
      some (auction, bidAmount, auctionPrice))
    (hquote : (getSwapQuote env.getSwap
      { tokenIn := um, tokenOut := SUSHISWAP_NATIVE_PLACEHOLDER,
        amount := env.existingUsdfcBalance + bidAmount, sender := w }).1 = some q)
    (hstatus : q.status = RouteStatus.Success)
    (htx : q.tx = some tx)
    (hgas : estimateGasCosts env (some r : Option Address).isSome q.tx =
      some (bidGasCost, swapGasCost))
    (hprof : (checkProfitability auctionPrice bidGasCost swapGasCost
      q.assumedAmountOut).isProfitable = true)
    (hbal : ¬ env.balance <
      (checkProfitability auctionPrice bidGasCost swapGasCost q.assumedAmountOut).totalCost)
    (hbid : env.placeBidResult = Except.ok bh)
    (hswap : env.executeSwapResult = Except.error msg) :
    (submitBidAndSwap env true (some tx)).1 = none ∧
    Event.placeBidCall env.transactionCount ∈ processAuctions env w u um (some r) ∧
    Event.waitForReceiptsCall ∉ processAuctions env w u um (some r) := by
  have hsub : submitBidAndSwap env (some r : Option Address).isSome q.tx =
      (none, [Event.fetchNonce, Event.placeBidCall env.transactionCount,
        Event.executeSwapCall (env.transactionCount + 1)]) := by
    rw [htx]
    exact submitBidAndSwap_swap_error env tx bh msg hbid hswap
  have htrace := processAuctions_submit_failure_trace env w u um (some r) auction bidAmount
    auctionPrice q bidGasCost swapGasCost _ hauction hquote hstatus hgas hprof hbal hsub
  refine ⟨?_, ?_, ?_⟩
  · rw [submitBidAndSwap_swap_error env tx bh msg hbid hswap]
  · rw [htrace]
    simp
  · rw [htrace]
    intro hmem
    simp only [List.mem_append, List.mem_cons, List.mem_singleton] at hmem
    rcases hmem with (h1 | h2) | h3
    · have := mem_getTokenAuction_trace h1; simp at this
    · have := mem_getSwapQuote_trace h2; simp at this
    · simp at h3

/-- Witness for C10: the sample environment whose swap submission throws. -/
theorem processAuctions_swap_failure_no_receipts_witness :
    (submitBidAndSwap swapSubmitErrorEnv true
      (some { toAddr := "0xrouter", data := "0xdata", value := 0 })).1 = none ∧
    Event.placeBidCall 7 ∈
      processAuctions swapSubmitErrorEnv "0xW" "0xU" "0xUM" (some "0xrouter") ∧
    Event.waitForReceiptsCall ∉
      processAuctions swapSubmitErrorEnv "0xW" "0xU" "0xUM" (some "0xrouter") := by
  have h := processAuctions_swap_failure_no_receipts swapSubmitErrorEnv "0xW" "0xU" "0xUM"
    "0xrouter" { token := "0xU", startPrice := 100, startTime := 1, availableFees := 5 } 5 100
    sampleQuote 1 1 { toAddr := "0xrouter", data := "0xdata", value := 0 } "0xbid"
    "nonce too low" (by decide) (by decide) (by decide) (by decide) (by decide) (by decide)
    (by decide) rfl rfl
  exact h

end Bot
